import Mathlib

/-!
A shallow embedding of `src/module_1/module_1_meteo_api.py` together with
proofs about the interval splitter, the retrying interval fetcher, the
response validator, the data assembler and the top level entry point.

Dates are modelled as proleptic Gregorian `(year, month, day)` triples with
Python's leap-year rule; `toDays` is Python's `datetime.toordinal` (up to a
constant shift), so comparison of `toDays` is exactly comparison of
`datetime` values.  Loops are embedded as fuel-indexed structural
recursions returning `none` when the fuel runs out; a sufficient fuel is
proved to exist, which is the termination statement for the source loops.
Python exceptions are modelled by the inductive `Exc`; the class hierarchy
relevant to the source's `except` clauses (`HTTPError` is a subclass of
`RequestException`) is captured by the predicates `Exc.isRequestException`
and `Exc.isHTTPError`.
-/

set_option maxRecDepth 8000

namespace MeteoApi

/-- Python datetime leap-year rule (proleptic Gregorian). -/
def isLeap (y : Nat) : Bool := (y % 4 == 0 && y % 100 != 0) || y % 400 == 0

/-- Length of month `m` (1..12) of year `y`. -/
def daysInMonth (y m : Nat) : Nat :=
  if m = 2 then (if isLeap y then 29 else 28)
  else if m = 4 ∨ m = 6 ∨ m = 9 ∨ m = 11 then 30
  else 31

/-- A calendar date, mirroring the date part of `datetime.datetime`. -/
structure Date where
  y : Nat
  m : Nat
  d : Nat
deriving DecidableEq

/-- The dates representable by `datetime` (what `strptime "%Y-%m-%d"` accepts). -/
def Date.Valid (dt : Date) : Prop :=
  1 ≤ dt.m ∧ dt.m ≤ 12 ∧ 1 ≤ dt.d ∧ dt.d ≤ daysInMonth dt.y dt.m

instance (dt : Date) : Decidable dt.Valid := by
  unfold Date.Valid; exact inferInstance

/-- The next calendar day, i.e. `+ timedelta(days=1)`. -/
def succDate (dt : Date) : Date :=
  if dt.d < daysInMonth dt.y dt.m then ⟨dt.y, dt.m, dt.d + 1⟩
  else if dt.m < 12 then ⟨dt.y, dt.m + 1, 1⟩
  else ⟨dt.y + 1, 1, 1⟩

/-- `dt + timedelta(days=n)`. -/
def addDays : Nat → Date → Date
  | 0, dt => dt
  | n + 1, dt => addDays n (succDate dt)

/-- The previous calendar day, i.e. `- timedelta(days=1)` (used on line 46). -/
def predDate (dt : Date) : Date :=
  if 1 < dt.d then ⟨dt.y, dt.m, dt.d - 1⟩
  else if 1 < dt.m then ⟨dt.y, dt.m - 1, daysInMonth dt.y (dt.m - 1)⟩
  else ⟨dt.y - 1, 12, 31⟩

/-- `.replace(day=1)`. -/
def firstOfMonth (dt : Date) : Date := ⟨dt.y, dt.m, 1⟩

/-- Line 45: `next_date = (current_date + timedelta(days=32)).replace(day=1)`. -/
def nextMonthStart (dt : Date) : Date := firstOfMonth (addDays 32 dt)

/-- The first day of the month after `(y, m)`. -/
def nextFirst (y m : Nat) : Date :=
  if m < 12 then ⟨y, m + 1, 1⟩ else ⟨y + 1, 1, 1⟩

def daysInYear (y : Nat) : Nat := if isLeap y then 366 else 365

def daysBeforeYear : Nat → Nat
  | 0 => 0
  | y + 1 => daysBeforeYear y + daysInYear y

def daysBeforeMonth (y : Nat) : Nat → Nat
  | 0 => 0
  | 1 => 0
  | m + 1 => daysBeforeMonth y m + daysInMonth y m

/-- Day index of a date: Python's `datetime.toordinal` up to a constant
shift.  Comparison of valid dates in the source (lines 44 and 46) is
comparison of their ordinals. -/
def toDays (dt : Date) : Nat :=
  daysBeforeYear dt.y + daysBeforeMonth dt.y dt.m + (dt.d - 1)

/-- Python's builtin `min` on two datetimes (line 46). -/
def minD (a b : Date) : Date := if toDays a ≤ toDays b then a else b

/-- Index of the calendar month of a date on the absolute month axis. -/
def monthIdx (dt : Date) : Nat := 12 * dt.y + dt.m

/-- A JSON scalar appearing in the `daily` arrays of a response payload. -/
inductive JVal where
  | str (v : String)
  | num (v : ℚ)
deriving DecidableEq

/-- One tabular record produced by the fetcher (lines 85..91). -/
structure Row where
  city : String
  date : JVal
  temperature_2m_mean : JVal
  precipitation_sum : JVal
  wind_speed_10m_max : JVal
deriving DecidableEq

/-- Python exceptions reaching the modelled code, with just enough of the
class hierarchy: `httpError` and `connectionError` are the
`requests.exceptions.RequestException` subclasses (`HTTPError` being the
one carrying a status code), the rest are builtin exceptions. -/
inductive Exc where
  | connectionError (msg : String)
  | httpError (status : Nat) (msg : String)
  | runtimeError (msg : String)
  | valueError (msg : String)
  | keyError (key : String)
  | indexError (msg : String)
deriving DecidableEq

/-- Membership in `requests.exceptions.RequestException` (first except
clause, line 94).  `HTTPError` is a subclass, so it is included. -/
def Exc.isRequestException : Exc → Bool
  | Exc.connectionError _ => true
  | Exc.httpError _ _ => true
  | _ => false

/-- Membership in `requests.exceptions.HTTPError` (second except clause,
line 98). -/
def Exc.isHTTPError : Exc → Bool
  | Exc.httpError _ _ => true
  | _ => false

/-- Membership in builtin `RuntimeError` (except clause on line 52). -/
def Exc.isRuntimeError : Exc → Bool
  | Exc.runtimeError _ => true
  | _ => false

/-- `e.response.status_code` for an `HTTPError` (line 99). -/
def Exc.statusCode : Exc → Option Nat
  | Exc.httpError st _ => some st
  | _ => none

/-- The message an exception formats to. -/
def Exc.msg : Exc → String
  | Exc.connectionError s => s
  | Exc.httpError _ s => s
  | Exc.runtimeError s => s
  | Exc.valueError s => s
  | Exc.keyError k => k
  | Exc.indexError s => s

/-- Line 22. -/
def API_URL : String := "https://archive-api.open-meteo.com/v1/archive?"

/-- Line 23. -/
def VARIABLES : List String :=
  ["temperature_2m_mean", "precipitation_sum", "wind_speed_10m_max"]

/-- Line 24. -/
def MAX_RETRIES : Nat := 5

/-- Lines 16..20: the static city table with coordinates. -/
def COORDINATES : List (String × ℚ × ℚ) :=
  [("Madrid", 40.4168, -3.7038),
   ("London", 51.5074, -0.1278),
   ("Rio de Janeiro", -22.9068, -43.1729)]

/-- The `daily` JSON object: a string-keyed dictionary of arrays. -/
abbrev DailyDict := List (String × List JVal)

/-- A decoded response payload; the modelled code only ever accesses the
key `daily`, so only its presence or absence is represented. -/
structure ApiData where
  daily : Option DailyDict
deriving DecidableEq

/-- Message of line 112, with the quoted key inlined. -/
def MISSING_DAILY_MSG : String :=
  "La respuesta de la API no contiene la clave daily."

/-- Message of line 115 for a given missing key. -/
def missingKeyMsg (k : String) : String :=
  "Falta la clave esperada " ++ k ++ " en la respuesta de la API."

/-- The `for key in VARIABLES` loop of lines 113..115. -/
def validateVars (dd : DailyDict) : List String → Except Exc Unit
  | [] => Except.ok ()
  | k :: ks =>
    if (dd.lookup k).isSome then validateVars dd ks
    else Except.error (Exc.runtimeError (missingKeyMsg k))

/-- Lines 107..115: `validate_response`. -/
def validate_response (data : ApiData) : Except Exc Unit :=
  match data.daily with
  | none => Except.error (Exc.runtimeError MISSING_DAILY_MSG)
  | some dd => validateVars dd VARIABLES

/-- Python list indexing `l[i]`, raising `IndexError` when out of range. -/
def getItem (l : List JVal) (i : Nat) : Except Exc JVal :=
  match l.get? i with
  | some v => Except.ok v
  | none => Except.error (Exc.indexError "list index out of range")

/-- Python dict indexing `dd[k]`, raising `KeyError` when absent. -/
def dictItem (dd : DailyDict) (k : String) : Except Exc (List JVal) :=
  match dd.lookup k with
  | some a => Except.ok a
  | none => Except.error (Exc.keyError k)

/-- One element of the list comprehension of lines 84..93, evaluated in the
source order of the dict literal; the first raised exception propagates. -/
def rowAt (city : String) (dd : DailyDict) (dates : List JVal) (i : Nat) :
    Except Exc Row :=
  match getItem dates i with
  | Except.error e => Except.error e
  | Except.ok dv =>
    match dictItem dd "temperature_2m_mean" with
    | Except.error e => Except.error e
    | Except.ok ta =>
      match getItem ta i with
      | Except.error e => Except.error e
      | Except.ok tv =>
        match dictItem dd "precipitation_sum" with
        | Except.error e => Except.error e
        | Except.ok pa =>
          match getItem pa i with
          | Except.error e => Except.error e
          | Except.ok pv =>
            match dictItem dd "wind_speed_10m_max" with
            | Except.error e => Except.error e
            | Except.ok wa =>
              match getItem wa i with
              | Except.error e => Except.error e
              | Except.ok wv => Except.ok ⟨city, dv, tv, pv, wv⟩

/-- A Python list comprehension over a list of indices, stopping at the
first raised exception. -/
def listComp (f : Nat → Except Exc Row) : List Nat → Except Exc (List Row)
  | [] => Except.ok []
  | i :: rest =>
    match f i with
    | Except.error e => Except.error e
    | Except.ok r =>
      match listComp f rest with
      | Except.error e => Except.error e
      | Except.ok rs => Except.ok (r :: rs)

/-- Lines 82..93: `dates = daily_data["date"]` followed by the
comprehension over `range(len(dates))`. -/
def extractRows (city : String) (dd : DailyDict) : Except Exc (List Row) :=
  match dictItem dd "date" with
  | Except.error e => Except.error e
  | Except.ok dates => listComp (rowAt city dd dates) (List.range dates.length)

/-- The query parameters of lines 65..72. -/
structure Params where
  latitude : ℚ
  longitude : ℚ
  start_date : String
  end_date : String
  daily : String
  timezone : String
deriving DecidableEq

def pad2 (n : Nat) : String := if n < 10 then "0" ++ toString n else toString n

def pad4 (n : Nat) : String :=
  if n < 10 then "000" ++ toString n
  else if n < 100 then "00" ++ toString n
  else if n < 1000 then "0" ++ toString n
  else toString n

/-- `strftime("%Y-%m-%d")`. -/
def formatDate (dt : Date) : String :=
  pad4 dt.y ++ "-" ++ pad2 dt.m ++ "-" ++ pad2 dt.d

/-- Lines 65..72: the `params` dictionary. -/
def buildParams (latitude longitude : ℚ) (start_date end_date : Date) : Params :=
  ⟨latitude, longitude, formatDate start_date, formatDate end_date,
    String.intercalate "," VARIABLES, "auto"⟩

/-- A transport: the combined effect of `requests.get`, `raise_for_status`
and `response.json()` on one attempt, indexed by how many transport calls
happened before (so a transport may answer differently per attempt). -/
def Transport : Type := Params → Nat → Except Exc ApiData

/-- Message of line 105 (`MAX_RETRIES` interpolated). -/
def MAX_RETRIES_MSG : String :=
  "No se pudo obtener datos despues de " ++ toString MAX_RETRIES ++ " intentos."

deriving instance DecidableEq for Except

/-- The result of one call of `fetch_data_interval`: the returned rows or
the escaping exception, the number of transport calls made, and the list
of `time.sleep` delays taken. -/
structure FetchOut where
  result : Except Exc (List Row)
  calls : Nat
  sleeps : List Nat
deriving DecidableEq

/-- The try body of lines 76..93: one transport call followed by
validation and extraction; any raised exception propagates to the
dispatching except clauses. -/
def tryBody (city : String) (p : Params) (transport : Transport) (calls : Nat) :
    Except Exc (List Row) :=
  match transport p calls with
  | Except.error e => Except.error e
  | Except.ok data =>
    match validate_response data with
    | Except.error e => Except.error e
    | Except.ok _ =>
      match data.daily with
      | none => Except.error (Exc.keyError "daily")
      | some dd => extractRows city dd

/-- The `while retries < MAX_RETRIES` loop of lines 75..105, with
`rem = MAX_RETRIES - retries` remaining iterations.  The except clauses
are dispatched in source order: `RequestException` first (line 94), then
`HTTPError` (line 98, unreachable since `HTTPError` is a subclass of
`RequestException`), and any other exception propagates. -/
def fetchLoop (city : String) (p : Params) (transport : Transport) :
    Nat → Nat → List Nat → FetchOut
  | 0, calls, sleeps =>
    ⟨Except.error (Exc.runtimeError MAX_RETRIES_MSG), calls, sleeps⟩
  | rem + 1, calls, sleeps =>
    match tryBody city p transport calls with
    | Except.ok rows => ⟨Except.ok rows, calls + 1, sleeps⟩
    | Except.error e =>
      if e.isRequestException then
        fetchLoop city p transport rem (calls + 1) (sleeps ++ [5])
      else if e.isHTTPError then
        if e.statusCode = some 404 then ⟨Except.error e, calls + 1, sleeps⟩
        else fetchLoop city p transport rem (calls + 1) (sleeps ++ [5])
      else ⟨Except.error e, calls + 1, sleeps⟩

/-- Lines 60..105: `fetch_data_interval`. -/
def fetch_data_interval (city : String) (latitude longitude : ℚ)
    (start_date end_date : Date) (transport : Transport) : FetchOut :=
  fetchLoop city (buildParams latitude longitude start_date end_date) transport
    MAX_RETRIES 0 []

/-- Observable side effects of the assembler loop. -/
inductive Ev where
  | fetchCall (a b : Date)
  | sleep (n : Nat)
deriving DecidableEq

/-- The `while current_date <= end_date_dt` loop of lines 44..56, with the
per-subrange fetch abstracted into `fetcher` (the claims quantify over its
outcomes).  `except RuntimeError` logs and skips; any other exception
propagates after the `finally` block has advanced the date and slept. -/
def gmdLoop (fetcher : Date → Date → Except Exc (List Row)) (e : Date) :
    Nat → Date → List Row → List Ev →
    Option ((Except Exc (List Row)) × List Ev)
  | 0, c, acc, evs => if toDays c ≤ toDays e then none else some (Except.ok acc, evs)
  | fuel + 1, c, acc, evs =>
    if toDays c ≤ toDays e then
      let nxt := nextMonthStart c
      let ie := minD (predDate nxt) e
      match fetcher c ie with
      | Except.ok rows =>
        gmdLoop fetcher e fuel nxt (acc ++ rows)
          (evs ++ [Ev.fetchCall c ie, Ev.sleep 1])
      | Except.error err =>
        if err.isRuntimeError then
          gmdLoop fetcher e fuel nxt acc (evs ++ [Ev.fetchCall c ie, Ev.sleep 1])
        else some (Except.error err, evs ++ [Ev.fetchCall c ie, Ev.sleep 1])
    else some (Except.ok acc, evs)

/-- Message of line 34. -/
def CITY_ERROR_MSG (city : String) : String := "Ciudad no soportada: " ++ city

/-- Message of line 36, with the quotes around month dropped. -/
def INTERVAL_ERROR_MSG : String := "El intervalo debe ser month."

/-- Lines 28..58: `get_meteo_data`.  Date strings arrive already parsed
(`strptime` on lines 40..41 accepts exactly the valid dates); the fuel
given to the loop is proved sufficient for valid dates, so the `none`
fallback is unreachable. -/
def get_meteo_data (city : String) (start_date end_date : Date)
    (interval : String) (fetcher : Date → Date → Except Exc (List Row)) :
    (Except Exc (List Row)) × List Ev :=
  if (COORDINATES.lookup city).isNone then
    (Except.error (Exc.valueError (CITY_ERROR_MSG city)), [])
  else if interval ≠ "month" then
    (Except.error (Exc.valueError INTERVAL_ERROR_MSG), [])
  else
    match gmdLoop fetcher end_date (toDays end_date + 1 - toDays start_date)
        start_date [] [] with
    | some out => out
    | none => (Except.error (Exc.runtimeError "fuel exhausted"), [])

/-- The sequence of `(current_date, interval_end_date)` sub-ranges produced
by lines 44..46 and 55, independent of fetch outcomes. -/
def splitRangesF (e : Date) : Nat → Date → Option (List (Date × Date))
  | 0, c => if toDays c ≤ toDays e then none else some []
  | fuel + 1, c =>
    if toDays c ≤ toDays e then
      let nxt := nextMonthStart c
      (splitRangesF e fuel nxt).map (fun rest => (c, minD (predDate nxt) e) :: rest)
    else some []

/-- `coversD s e l` states that the day-index intervals in `l` are
contiguous, non-overlapping and cover `[s, e]` exactly once, in order. -/
def coversD : Nat → Nat → List (Nat × Nat) → Prop
  | s, e, [] => s = e + 1
  | s, e, (a, b) :: rest => a = s ∧ s ≤ b ∧ b ≤ e ∧ coversD (b + 1) e rest

instance instDecCoversD : ∀ (s e : Nat) (l : List (Nat × Nat)), Decidable (coversD s e l)
  | s, e, [] => inferInstanceAs (Decidable (s = e + 1))
  | s, e, (a, b) :: rest =>
    have : Decidable (coversD (b + 1) e rest) := instDecCoversD (b + 1) e rest
    inferInstanceAs (Decidable (_ ∧ _ ∧ _ ∧ _))

/-- A sub-range spanning exactly one full calendar month. -/
def FullMonth (r : Date × Date) : Prop :=
  r.1.d = 1 ∧ r.2 = ⟨r.1.y, r.1.m, daysInMonth r.1.y r.1.m⟩

instance (r : Date × Date) : Decidable (FullMonth r) := by
  unfold FullMonth; exact inferInstance

/-- Lines 214..218: the module entry point wraps `main()` in
`try/except Exception`, logging and swallowing any error; the argument is
the outcome of `main()`. -/
def mainGuard (r : Except Exc Unit) : (Except Exc Unit) × List String :=
  match r with
  | Except.ok _ => (Except.ok (), [])
  | Except.error e => (Except.ok (), ["Error inesperado: " ++ e.msg])

/-! ### Arithmetic facts about the calendar model -/

lemma daysInMonth_ge (y m : Nat) : 28 ≤ daysInMonth y m := by
  unfold daysInMonth; split_ifs <;> omega

lemma daysInMonth_le (y m : Nat) : daysInMonth y m ≤ 31 := by
  unfold daysInMonth; split_ifs <;> omega

lemma daysInMonth_twelve (y : Nat) : daysInMonth y 12 = 31 := by
  norm_num [daysInMonth]

lemma daysBeforeMonth_one (y : Nat) : daysBeforeMonth y 1 = 0 := rfl

lemma daysBeforeYear_succ (y : Nat) :
    daysBeforeYear (y + 1) = daysBeforeYear y + daysInYear y := rfl

lemma daysBeforeMonth_succ (y m : Nat) (h : 1 ≤ m) :
    daysBeforeMonth y (m + 1) = daysBeforeMonth y m + daysInMonth y m := by
  cases m with
  | zero => omega
  | succ k => rfl

lemma daysBeforeMonth_twelve (y : Nat) :
    daysBeforeMonth y 12 + 31 = daysInYear y := by
  show 0 + daysInMonth y 1 + daysInMonth y 2 + daysInMonth y 3 + daysInMonth y 4 +
      daysInMonth y 5 + daysInMonth y 6 + daysInMonth y 7 + daysInMonth y 8 +
      daysInMonth y 9 + daysInMonth y 10 + daysInMonth y 11 + 31 = daysInYear y
  by_cases h : isLeap y = true <;>
    norm_num [daysInMonth, daysInYear, h]

lemma daysBeforeMonth_ge31 (y : Nat) : ∀ m, 2 ≤ m → 31 ≤ daysBeforeMonth y m := by
  intro m
  induction m with
  | zero => omega
  | succ k ih =>
    intro h
    rcases Nat.lt_or_ge k 2 with hk | hk
    · have hk1 : k = 1 := by omega
      subst hk1
      have : daysBeforeMonth y 2 = daysBeforeMonth y 1 + daysInMonth y 1 :=
        daysBeforeMonth_succ y 1 (le_refl 1)
      rw [this, daysBeforeMonth_one]
      norm_num [daysInMonth]
    · have h1 : 1 ≤ k := by omega
      rw [daysBeforeMonth_succ y k h1]
      have := ih hk
      omega

lemma daysBeforeYear_ge365 (y : Nat) (h : 1 ≤ y) : 365 ≤ daysBeforeYear y := by
  cases y with
  | zero => omega
  | succ k =>
    rw [daysBeforeYear_succ]
    unfold daysInYear
    split_ifs <;> omega

/-- One day forward preserves validity and advances the ordinal by one. -/
lemma succDate_spec (dt : Date) (h : dt.Valid) :
    (succDate dt).Valid ∧ toDays (succDate dt) = toDays dt + 1 := by
  obtain ⟨y, m, d⟩ := dt
  obtain ⟨h1, h2, h3, h4⟩ := h
  dsimp only at h1 h2 h3 h4
  unfold succDate
  dsimp only
  split_ifs with hd hm
  · constructor
    · unfold Date.Valid
      dsimp only
      omega
    · unfold toDays
      dsimp only
      omega
  · have h28 := daysInMonth_ge y (m + 1)
    constructor
    · unfold Date.Valid
      dsimp only
      omega
    · unfold toDays
      dsimp only
      rw [daysBeforeMonth_succ y m h1]
      omega
  · have hm12 : m = 12 := by omega
    subst hm12
    have h31 : daysInMonth y 12 = 31 := daysInMonth_twelve y
    have h28 := daysInMonth_ge (y + 1) 1
    constructor
    · unfold Date.Valid
      dsimp only
      omega
    · unfold toDays
      dsimp only
      rw [daysBeforeYear_succ, daysBeforeMonth_one]
      have h12 := daysBeforeMonth_twelve y
      omega

lemma addDays_spec : ∀ (n : Nat) (dt : Date), dt.Valid →
    (addDays n dt).Valid ∧ toDays (addDays n dt) = toDays dt + n
  | 0, dt, h => ⟨h, rfl⟩
  | n + 1, dt, h => by
    obtain ⟨hv, ht⟩ := succDate_spec dt h
    obtain ⟨hv2, ht2⟩ := addDays_spec n (succDate dt) hv
    refine ⟨hv2, ?_⟩
    show toDays (addDays n (succDate dt)) = toDays dt + (n + 1)
    omega

lemma addDays_add (a b : Nat) : ∀ dt : Date,
    addDays (a + b) dt = addDays b (addDays a dt) := by
  induction a with
  | zero => intro dt; rw [Nat.zero_add]; rfl
  | succ k ih =>
    intro dt
    have he : (k + 1) + b = (k + b) + 1 := by omega
    rw [he]
    show addDays (k + b) (succDate dt) = addDays b (addDays (k + 1) dt)
    rw [ih (succDate dt)]
    rfl

lemma addDays_within : ∀ (n y m d : Nat), 1 ≤ d → d + n ≤ daysInMonth y m →
    addDays n ⟨y, m, d⟩ = ⟨y, m, d + n⟩ := by
  intro n
  induction n with
  | zero => intro y m d h1 h2; rfl
  | succ k ih =>
    intro y m d h1 h2
    have hd : d < daysInMonth y m := by omega
    show addDays k (succDate ⟨y, m, d⟩) = ⟨y, m, d + (k + 1)⟩
    unfold succDate
    simp only
    rw [if_pos hd]
    rw [ih y m (d + 1) (by omega) (by omega)]
    simp only [Date.mk.injEq, true_and]
    omega

lemma addDays_cross (y m d : Nat) (h1 : 1 ≤ d) (h4 : d ≤ daysInMonth y m) :
    addDays (daysInMonth y m - d + 1) ⟨y, m, d⟩ = nextFirst y m := by
  rw [addDays_add (daysInMonth y m - d) 1]
  rw [addDays_within (daysInMonth y m - d) y m d h1 (by omega)]
  have hdd : d + (daysInMonth y m - d) = daysInMonth y m := by omega
  rw [hdd]
  show succDate ⟨y, m, daysInMonth y m⟩ = nextFirst y m
  unfold succDate nextFirst
  simp only
  rw [if_neg (lt_irrefl _)]

/-- The ordinal of the first of the month of `addDays 32 dt`, hence of
`nextMonthStart dt`, lies 2 to 32 days after `dt`. -/
lemma nextMonthStart_spec (dt : Date) (h : dt.Valid) :
    (nextMonthStart dt).Valid ∧ (nextMonthStart dt).d = 1 ∧
    toDays dt + 2 ≤ toDays (nextMonthStart dt) ∧
    toDays (nextMonthStart dt) ≤ toDays dt + 32 := by
  obtain ⟨hv, ht⟩ := addDays_spec 32 dt h
  obtain ⟨g1, g2, g3, g4⟩ := hv
  have hle := daysInMonth_le (addDays 32 dt).y (addDays 32 dt).m
  have hge := daysInMonth_ge (addDays 32 dt).y (addDays 32 dt).m
  have hfirst : toDays (nextMonthStart dt) =
      daysBeforeYear (addDays 32 dt).y + daysBeforeMonth (addDays 32 dt).y (addDays 32 dt).m := by
    unfold nextMonthStart firstOfMonth toDays
    dsimp only
    omega
  have hexp : toDays (addDays 32 dt) =
      daysBeforeYear (addDays 32 dt).y + daysBeforeMonth (addDays 32 dt).y (addDays 32 dt).m +
        ((addDays 32 dt).d - 1) := rfl
  have hmk : nextMonthStart dt = ⟨(addDays 32 dt).y, (addDays 32 dt).m, 1⟩ := by
    unfold nextMonthStart firstOfMonth
    rfl
  refine ⟨?_, ?_, ?_, ?_⟩
  · rw [hmk]
    unfold Date.Valid
    dsimp only
    omega
  · rw [hmk]
  · omega
  · omega

/-- The ordinal of `nextMonthStart dt` is at least 31 for any valid `dt`;
in particular `predDate` applied to it never reaches before the epoch. -/
lemma nextMonthStart_ge31 (dt : Date) (h : dt.Valid) :
    31 ≤ toDays (nextMonthStart dt) := by
  obtain ⟨hv, ht⟩ := addDays_spec 32 dt h
  obtain ⟨g1, g2, g3, g4⟩ := hv
  have hle := daysInMonth_le (addDays 32 dt).y (addDays 32 dt).m
  have hfirst : toDays (nextMonthStart dt) =
      daysBeforeYear (addDays 32 dt).y + daysBeforeMonth (addDays 32 dt).y (addDays 32 dt).m := by
    unfold nextMonthStart firstOfMonth toDays
    dsimp only
    omega
  have hexp : toDays (addDays 32 dt) =
      daysBeforeYear (addDays 32 dt).y + daysBeforeMonth (addDays 32 dt).y (addDays 32 dt).m +
        ((addDays 32 dt).d - 1) := rfl
  have h32 : 32 ≤ toDays (addDays 32 dt) := by omega
  rcases Nat.eq_zero_or_pos (addDays 32 dt).y with hy | hy
  · have hm2 : 2 ≤ (addDays 32 dt).m := by
      by_contra hm
      have hm1 : (addDays 32 dt).m = 1 := by omega
      rw [hy, hm1] at hexp
      have : daysBeforeYear 0 = 0 := rfl
      have : daysBeforeMonth 0 1 = 0 := rfl
      omega
    have := daysBeforeMonth_ge31 (addDays 32 dt).y (addDays 32 dt).m hm2
    omega
  · have := daysBeforeYear_ge365 (addDays 32 dt).y hy
    omega

/-- `predDate` on a valid first-of-month date at ordinal at least 31 is a
valid date exactly one day earlier. -/
lemma pred_of_first (dt : Date) (hv : dt.Valid) (hd : dt.d = 1)
    (h31 : 31 ≤ toDays dt) :
    (predDate dt).Valid ∧ toDays (predDate dt) + 1 = toDays dt := by
  obtain ⟨y, m, d⟩ := dt
  obtain ⟨h1, h2, h3, h4⟩ := hv
  dsimp only at h1 h2 h3 h4 hd h31
  subst hd
  unfold predDate
  dsimp only
  rw [if_neg (lt_irrefl 1)]
  split_ifs with hm
  · have hge := daysInMonth_ge y (m - 1)
    have hle := daysInMonth_le y (m - 1)
    constructor
    · unfold Date.Valid
      dsimp only
      omega
    · unfold toDays
      dsimp only
      have hsucc : daysBeforeMonth y ((m - 1) + 1) =
          daysBeforeMonth y (m - 1) + daysInMonth y (m - 1) :=
        daysBeforeMonth_succ y (m - 1) (by omega)
      have hmm : (m - 1) + 1 = m := by omega
      rw [hmm] at hsucc
      omega
  · have hm1 : m = 1 := by omega
    subst hm1
    have htd : toDays ⟨y, 1, 1⟩ = daysBeforeYear y := by
      unfold toDays
      dsimp only
      rw [daysBeforeMonth_one]
      omega
    have hy : 1 ≤ y := by
      by_contra hy0
      have hy' : y = 0 := by omega
      subst hy'
      have e0 : daysBeforeYear 0 = 0 := rfl
      omega
    obtain ⟨k, rfl⟩ : ∃ k, y = k + 1 := ⟨y - 1, by omega⟩
    have h12 := daysBeforeMonth_twelve k
    have h31k := daysInMonth_twelve k
    have hk : (k + 1) - 1 = k := by omega
    have hby := daysBeforeYear_succ k
    have hbm1 := daysBeforeMonth_one (k + 1)
    constructor
    · unfold Date.Valid
      dsimp only
      rw [hk]
      omega
    · unfold toDays
      dsimp only
      rw [hk]
      omega

lemma monthIdx_succDate (dt : Date) (h : dt.Valid) :
    monthIdx dt ≤ monthIdx (succDate dt) := by
  obtain ⟨y, m, d⟩ := dt
  obtain ⟨h1, h2, h3, h4⟩ := h
  dsimp only at h1 h2 h3 h4
  unfold succDate monthIdx
  dsimp only
  split_ifs <;> dsimp only <;> omega

lemma monthIdx_addDays : ∀ (n : Nat) (dt : Date), dt.Valid →
    monthIdx dt ≤ monthIdx (addDays n dt)
  | 0, dt, _ => le_refl _
  | n + 1, dt, h => by
    have h1 := monthIdx_succDate dt h
    have h2 := monthIdx_addDays n (succDate dt) (succDate_spec dt h).1
    calc monthIdx dt ≤ monthIdx (succDate dt) := h1
      _ ≤ monthIdx (addDays n (succDate dt)) := h2

/-- Line 45 advances `current_date` to the first of a strictly later
calendar month. -/
lemma monthIdx_nextMonthStart (dt : Date) (h : dt.Valid) :
    monthIdx dt < monthIdx (nextMonthStart dt) := by
  obtain ⟨hv, ht⟩ := addDays_spec 32 dt h
  obtain ⟨g1, g2, g3, g4⟩ := hv
  obtain ⟨h1, h2, h3, h4⟩ := h
  have hmono := monthIdx_addDays 32 dt (by exact ⟨h1, h2, h3, h4⟩)
  have hidx : monthIdx (nextMonthStart dt) = monthIdx (addDays 32 dt) := by
    unfold nextMonthStart firstOfMonth monthIdx
    dsimp only
  rw [hidx]
  rcases Nat.lt_or_ge (monthIdx dt) (monthIdx (addDays 32 dt)) with hlt | hge
  · exact hlt
  · exfalso
    unfold monthIdx at hmono hge
    have hy : (addDays 32 dt).y = dt.y := by omega
    have hm : (addDays 32 dt).m = dt.m := by omega
    have hexp : toDays (addDays 32 dt) =
        daysBeforeYear (addDays 32 dt).y + daysBeforeMonth (addDays 32 dt).y (addDays 32 dt).m +
          ((addDays 32 dt).d - 1) := rfl
    have hexp2 : toDays dt =
        daysBeforeYear dt.y + daysBeforeMonth dt.y dt.m + (dt.d - 1) := rfl
    rw [hy, hm] at hexp
    have hdle := daysInMonth_le (addDays 32 dt).y (addDays 32 dt).m
    omega

/-- From the first of a month, line 45 lands on the first of the very next
month, and the day before it is the last day of the starting month. -/
lemma nextMonthStart_of_first (c : Date) (h : c.Valid) (hd : c.d = 1) :
    nextMonthStart c = nextFirst c.y c.m ∧
    predDate (nextFirst c.y c.m) = ⟨c.y, c.m, daysInMonth c.y c.m⟩ := by
  obtain ⟨y, m, d⟩ := c
  obtain ⟨h1, h2, h3, h4⟩ := h
  dsimp only at h1 h2 h3 h4 hd ⊢
  subst hd
  have hge := daysInMonth_ge y m
  have hle := daysInMonth_le y m
  have hcross := addDays_cross y m 1 (le_refl 1) h4
  have ha : addDays 32 ⟨y, m, 1⟩ = addDays (32 - daysInMonth y m) (nextFirst y m) := by
    have h32 : (32 : Nat) = (daysInMonth y m - 1 + 1) + (32 - daysInMonth y m) := by omega
    nth_rewrite 1 [h32]
    rw [addDays_add, hcross]
  by_cases hm : m < 12
  · have hnf : nextFirst y m = ⟨y, m + 1, 1⟩ := by
      unfold nextFirst
      rw [if_pos hm]
    have h28 := daysInMonth_ge y (m + 1)
    have hwithin : addDays (32 - daysInMonth y m) ⟨y, m + 1, 1⟩ =
        ⟨y, m + 1, 1 + (32 - daysInMonth y m)⟩ :=
      addDays_within (32 - daysInMonth y m) y (m + 1) 1 (le_refl 1) (by omega)
    constructor
    · show firstOfMonth (addDays 32 ⟨y, m, 1⟩) = nextFirst y m
      rw [ha, hnf, hwithin]
      rfl
    · rw [hnf]
      unfold predDate
      dsimp only
      rw [if_neg (lt_irrefl 1), if_pos (by omega : 1 < m + 1)]
      simp only [Nat.add_sub_cancel]
  · have hm12 : m = 12 := by omega
    subst hm12
    have h31 := daysInMonth_twelve y
    have h31b : daysInMonth (y + 1) 1 = 31 := by norm_num [daysInMonth]
    have hnf : nextFirst y 12 = ⟨y + 1, 1, 1⟩ := by
      unfold nextFirst
      rw [if_neg (lt_irrefl 12)]
    have hwithin : addDays (32 - daysInMonth y 12) ⟨y + 1, 1, 1⟩ =
        ⟨y + 1, 1, 1 + (32 - daysInMonth y 12)⟩ :=
      addDays_within (32 - daysInMonth y 12) (y + 1) 1 1 (le_refl 1) (by omega)
    constructor
    · show firstOfMonth (addDays 32 ⟨y, 12, 1⟩) = nextFirst y 12
      rw [ha, hnf, hwithin]
      rfl
    · rw [hnf]
      unfold predDate
      dsimp only
      rw [if_neg (lt_irrefl 1), if_neg (lt_irrefl 1), h31]
      simp only [Nat.add_sub_cancel]

/-- Combined facts about one iteration step of the splitter loop. -/
lemma step_spec (c : Date) (h : c.Valid) :
    (nextMonthStart c).Valid ∧ toDays c + 2 ≤ toDays (nextMonthStart c) ∧
    (predDate (nextMonthStart c)).Valid ∧
    toDays (predDate (nextMonthStart c)) + 1 = toDays (nextMonthStart c) := by
  obtain ⟨hv, hd1, hlb, _⟩ := nextMonthStart_spec c h
  have h31 := nextMonthStart_ge31 c h
  obtain ⟨pv, pt⟩ := pred_of_first (nextMonthStart c) hv hd1 h31
  exact ⟨hv, hlb, pv, pt⟩

/-! ### The interval splitter loop -/

lemma split_stop (e : Date) (fuel : Nat) (c : Date) (h : toDays e < toDays c) :
    splitRangesF e fuel c = some [] := by
  cases fuel with
  | zero =>
    unfold splitRangesF
    rw [if_neg (by omega)]
  | succ n =>
    unfold splitRangesF
    rw [if_neg (by omega)]

lemma split_total (e : Date) : ∀ (fuel : Nat) (c : Date), c.Valid →
    toDays e < toDays c + fuel → ∃ l, splitRangesF e fuel c = some l := by
  intro fuel
  induction fuel with
  | zero =>
    intro c hv hf
    refine ⟨[], ?_⟩
    unfold splitRangesF
    rw [if_neg (by omega)]
  | succ n ih =>
    intro c hv hf
    by_cases hce : toDays c ≤ toDays e
    · obtain ⟨hv2, hlb, _, _⟩ := step_spec c hv
      obtain ⟨l, hl⟩ := ih (nextMonthStart c) hv2 (by omega)
      refine ⟨(c, minD (predDate (nextMonthStart c)) e) :: l, ?_⟩
      unfold splitRangesF
      rw [if_pos hce]
      dsimp only
      rw [hl]
      rfl
    · refine ⟨[], ?_⟩
      unfold splitRangesF
      rw [if_neg hce]

/-- Destructuring of one unfolding of the splitter loop. -/
lemma split_cons (e : Date) (n : Nat) (c : Date) (l : List (Date × Date))
    (hce : toDays c ≤ toDays e)
    (hl : splitRangesF e (n + 1) c = some l) :
    ∃ rest, splitRangesF e n (nextMonthStart c) = some rest ∧
      l = (c, minD (predDate (nextMonthStart c)) e) :: rest := by
  unfold splitRangesF at hl
  rw [if_pos hce] at hl
  dsimp only at hl
  cases hsp : splitRangesF e n (nextMonthStart c) with
  | none =>
    rw [hsp] at hl
    simp at hl
  | some rest =>
    rw [hsp] at hl
    simp only [Option.map_some'] at hl
    exact ⟨rest, rfl, (Option.some.injEq _ _).mp hl.symm⟩

/-- The sub-ranges cover `[start, end]` contiguously, without overlap and
without gaps, on the day-index axis. -/
lemma split_covers (e : Date) : ∀ (fuel : Nat) (c : Date) (l : List (Date × Date)),
    c.Valid → toDays c ≤ toDays e → splitRangesF e fuel c = some l →
    coversD (toDays c) (toDays e) (l.map fun p => (toDays p.1, toDays p.2)) := by
  intro fuel
  induction fuel with
  | zero =>
    intro c l hv hce hl
    unfold splitRangesF at hl
    rw [if_pos hce] at hl
    exact Option.noConfusion hl
  | succ n ih =>
    intro c l hv hce hl
    obtain ⟨rest, hrest, rfl⟩ := split_cons e n c l hce hl
    obtain ⟨hv2, hlb, pv, pt⟩ := step_spec c hv
    simp only [List.map_cons]
    by_cases hne : toDays (nextMonthStart c) ≤ toDays e
    · have hmin : minD (predDate (nextMonthStart c)) e = predDate (nextMonthStart c) := by
        unfold minD
        rw [if_pos (by omega)]
      rw [hmin]
      have hcov := ih (nextMonthStart c) rest hv2 hne hrest
      refine ⟨rfl, by omega, by omega, ?_⟩
      have hq : toDays (predDate (nextMonthStart c)) + 1 = toDays (nextMonthStart c) := pt
      rw [hq]
      exact hcov
    · have hrest0 : rest = [] := by
        have hstop := split_stop e n (nextMonthStart c) (by omega)
        rw [hstop] at hrest
        exact ((Option.some.injEq _ _).mp hrest).symm
      subst hrest0
      have hb : toDays (minD (predDate (nextMonthStart c)) e) = toDays e := by
        unfold minD
        split_ifs with hmm2
        · omega
        · rfl
      simp only [List.map_nil]
      refine ⟨rfl, by omega, by omega, ?_⟩
      show toDays (minD (predDate (nextMonthStart c)) e) + 1 = toDays e + 1
      omega

/-- Every sub-range except possibly the last one emitted spans exactly one
full calendar month, provided the loop starts on a first-of-month. -/
lemma split_middles (e : Date) : ∀ (fuel : Nat) (c : Date) (l : List (Date × Date)),
    c.Valid → c.d = 1 → splitRangesF e fuel c = some l →
    ∀ r ∈ l.dropLast, FullMonth r := by
  intro fuel
  induction fuel with
  | zero =>
    intro c l hv hd hl
    unfold splitRangesF at hl
    by_cases hce : toDays c ≤ toDays e
    · rw [if_pos hce] at hl
      exact Option.noConfusion hl
    · rw [if_neg hce] at hl
      obtain rfl : ([] : List (Date × Date)) = l := (Option.some.injEq _ _).mp hl
      intro r hr
      simp at hr
  | succ n ih =>
    intro c l hv hd hl
    by_cases hce : toDays c ≤ toDays e
    · obtain ⟨rest, hrest, rfl⟩ := split_cons e n c l hce hl
      obtain ⟨hv2, hlb, pv, pt⟩ := step_spec c hv
      cases rest with
      | nil =>
        intro r hr
        simp at hr
      | cons r2 rest2 =>
        have hne : toDays (nextMonthStart c) ≤ toDays e := by
          by_contra hgt
          have hstop := split_stop e n (nextMonthStart c) (by omega)
          rw [hstop] at hrest
          simp at hrest
        have hmin : minD (predDate (nextMonthStart c)) e = predDate (nextMonthStart c) := by
          unfold minD
          rw [if_pos (by omega)]
        intro r hr
        have hdl : ((c, minD (predDate (nextMonthStart c)) e) :: r2 :: rest2).dropLast =
            (c, minD (predDate (nextMonthStart c)) e) :: (r2 :: rest2).dropLast := rfl
        rw [hdl] at hr
        rcases List.mem_cons.mp hr with hr1 | hr2
        · subst hr1
          obtain ⟨k1, k2⟩ := nextMonthStart_of_first c hv hd
          unfold FullMonth
          dsimp only
          exact ⟨hd, by rw [hmin, k1, k2]⟩
        · have hd2 : (nextMonthStart c).d = 1 := (nextMonthStart_spec c hv).2.1
          exact ih (nextMonthStart c) (r2 :: rest2) hv2 hd2 hrest r hr2
    · unfold splitRangesF at hl
      rw [if_neg hce] at hl
      obtain rfl : ([] : List (Date × Date)) = l := (Option.some.injEq _ _).mp hl
      intro r hr
      simp at hr

/-! ### The assembler loop -/

/-- The assembler loop always terminates when given fuel covering the
number of days left, whatever the fetcher does. -/
lemma gmd_total (fetcher : Date → Date → Except Exc (List Row)) (e : Date) :
    ∀ (fuel : Nat) (c : Date) (acc : List Row) (evs : List Ev),
    c.Valid → toDays e < toDays c + fuel →
    ∃ out, gmdLoop fetcher e fuel c acc evs = some out := by
  intro fuel
  induction fuel with
  | zero =>
    intro c acc evs hv hf
    refine ⟨(Except.ok acc, evs), ?_⟩
    unfold gmdLoop
    rw [if_neg (by omega)]
  | succ n ih =>
    intro c acc evs hv hf
    by_cases hce : toDays c ≤ toDays e
    · obtain ⟨hv2, hlb, _, _⟩ := step_spec c hv
      unfold gmdLoop
      rw [if_pos hce]
      dsimp only
      cases hfr : fetcher c (minD (predDate (nextMonthStart c)) e) with
      | ok rows => exact ih (nextMonthStart c) (acc ++ rows) _ hv2 (by omega)
      | error err =>
        dsimp only
        by_cases hrt : err.isRuntimeError = true
        · rw [if_pos hrt]
          exact ih (nextMonthStart c) acc _ hv2 (by omega)
        · rw [if_neg hrt]
          exact ⟨_, rfl⟩
    · refine ⟨(Except.ok acc, evs), ?_⟩
      unfold gmdLoop
      rw [if_neg hce]

/-- If every fetcher outcome is a success or a `RuntimeError`, the
assembler loop always finishes with a success. -/
lemma gmd_ok (fetcher : Date → Date → Except Exc (List Row)) (e : Date)
    (hf : ∀ a b, (∃ rows, fetcher a b = Except.ok rows) ∨
      (∃ msg, fetcher a b = Except.error (Exc.runtimeError msg))) :
    ∀ (fuel : Nat) (c : Date) (acc : List Row) (evs : List Ev),
    c.Valid → toDays e < toDays c + fuel →
    ∃ rows2 evs2, gmdLoop fetcher e fuel c acc evs = some (Except.ok rows2, evs2) := by
  intro fuel
  induction fuel with
  | zero =>
    intro c acc evs hv hfl
    refine ⟨acc, evs, ?_⟩
    unfold gmdLoop
    rw [if_neg (by omega)]
  | succ n ih =>
    intro c acc evs hv hfl
    by_cases hce : toDays c ≤ toDays e
    · obtain ⟨hv2, hlb, _, _⟩ := step_spec c hv
      unfold gmdLoop
      rw [if_pos hce]
      dsimp only
      rcases hf c (minD (predDate (nextMonthStart c)) e) with ⟨rows, hr⟩ | ⟨msg, hr⟩
      · rw [hr]
        exact ih (nextMonthStart c) (acc ++ rows) _ hv2 (by omega)
      · rw [hr]
        dsimp only
        have hcond : (Exc.runtimeError msg).isRuntimeError = true := rfl
        rw [if_pos hcond]
        exact ih (nextMonthStart c) acc _ hv2 (by omega)
    · refine ⟨acc, evs, ?_⟩
      unfold gmdLoop
      rw [if_neg hce]

/-! ### The fetch retry loop -/

/-- If the transport raises a `RequestException` on every attempt, the
retry loop consumes all its attempts, sleeping 5 units after each one, and
ends with the max-retries `RuntimeError`. -/
lemma fetchLoop_retry (city : String) (p : Params) (transport : Transport)
    (hT : ∀ k, ∃ exc, transport p k = Except.error exc ∧ exc.isRequestException = true) :
    ∀ (rem calls : Nat) (sleeps : List Nat),
    fetchLoop city p transport rem calls sleeps =
      ⟨Except.error (Exc.runtimeError MAX_RETRIES_MSG), calls + rem,
        sleeps ++ List.replicate rem 5⟩ := by
  intro rem
  induction rem with
  | zero =>
    intro calls sleeps
    unfold fetchLoop
    simp
  | succ n ih =>
    intro calls sleeps
    obtain ⟨exc, he, hreq⟩ := hT calls
    have htb : tryBody city p transport calls = Except.error exc := by
      unfold tryBody
      rw [he]
    unfold fetchLoop
    rw [htb]
    dsimp only
    rw [if_pos hreq]
    rw [ih (calls + 1) (sleeps ++ [5])]
    have hc : calls + 1 + n = calls + (n + 1) := by omega
    rw [hc, List.replicate_succ]
    simp only [List.append_assoc, List.singleton_append]

/-! ### The validator -/

/-- `validate_response` on the variable list succeeds exactly when every
required key is present. -/
lemma validateVars_ok_iff (dd : DailyDict) : ∀ ks : List String,
    (validateVars dd ks = Except.ok () ↔ ∀ k ∈ ks, (dd.lookup k).isSome = true) := by
  intro ks
  induction ks with
  | nil => simp [validateVars]
  | cons k ks ih =>
    unfold validateVars
    by_cases h : (dd.lookup k).isSome = true
    · rw [if_pos h]
      rw [ih]
      constructor
      · intro hall k2 hk2
        rcases List.mem_cons.mp hk2 with rfl | hk2
        · exact h
        · exact hall k2 hk2
      · intro hall k2 hk2
        exact hall k2 (List.mem_cons_of_mem k hk2)
    · rw [if_neg h]
      constructor
      · intro he
        exact Except.noConfusion he
      · intro hall
        exact absurd (hall k (List.mem_cons_self k ks)) h

/-- `validateVars` fails naming exactly the first key, in list order, that
is missing from the daily dictionary. -/
lemma validateVars_find (dd : DailyDict) : ∀ (ks : List String) (k : String),
    ks.find? (fun v => (dd.lookup v).isNone) = some k →
    validateVars dd ks = Except.error (Exc.runtimeError (missingKeyMsg k)) := by
  intro ks
  induction ks with
  | nil =>
    intro k h
    simp at h
  | cons k0 ks ih =>
    intro k h
    unfold validateVars
    by_cases h0 : (dd.lookup k0).isSome = true
    · rw [if_pos h0]
      have hpred : ¬((fun v => (dd.lookup v).isNone) k0 = true) := by
        cases hx : dd.lookup k0 with
        | none => rw [hx] at h0; simp at h0
        | some a => simp [hx]
      rw [List.find?_cons_of_neg ks hpred] at h
      exact ih k h
    · have hpred : ((fun v => (dd.lookup v).isNone) k0 = true) := by
        cases hx : dd.lookup k0 with
        | none => simp [hx]
        | some a => rw [hx] at h0; simp at h0
      rw [List.find?_cons_of_pos ks hpred] at h
      obtain rfl : k0 = k := (Option.some.injEq _ _).mp h
      rw [if_neg h0]

/-! ### Extraction -/

lemma get?_getD (l : List JVal) (i : Nat) (h : i < l.length) :
    l.get? i = some (l.getD i (JVal.str "")) := by
  simp [List.get?_eq_getElem?, List.getD_eq_getElem?_getD, List.getElem?_eq_getElem h]

/-- One comprehension element succeeds and zips positionally when the
arrays are long enough. -/
lemma rowAt_ok (city : String) (dd : DailyDict) (dates tA pA wA : List JVal)
    (ht : dd.lookup "temperature_2m_mean" = some tA)
    (hp : dd.lookup "precipitation_sum" = some pA)
    (hw : dd.lookup "wind_speed_10m_max" = some wA)
    (i : Nat) (hi : i < dates.length) (hit : i < tA.length)
    (hip : i < pA.length) (hiw : i < wA.length) :
    rowAt city dd dates i = Except.ok
      ⟨city, dates.getD i (JVal.str ""), tA.getD i (JVal.str ""),
        pA.getD i (JVal.str ""), wA.getD i (JVal.str "")⟩ := by
  have h1 : getItem dates i = Except.ok (dates.getD i (JVal.str "")) := by
    unfold getItem
    rw [get?_getD dates i hi]
  have h2 : dictItem dd "temperature_2m_mean" = Except.ok tA := by
    unfold dictItem
    rw [ht]
  have h3 : getItem tA i = Except.ok (tA.getD i (JVal.str "")) := by
    unfold getItem
    rw [get?_getD tA i hit]
  have h4 : dictItem dd "precipitation_sum" = Except.ok pA := by
    unfold dictItem
    rw [hp]
  have h5 : getItem pA i = Except.ok (pA.getD i (JVal.str "")) := by
    unfold getItem
    rw [get?_getD pA i hip]
  have h6 : dictItem dd "wind_speed_10m_max" = Except.ok wA := by
    unfold dictItem
    rw [hw]
  have h7 : getItem wA i = Except.ok (wA.getD i (JVal.str "")) := by
    unfold getItem
    rw [get?_getD wA i hiw]
  unfold rowAt
  rw [h1]
  dsimp only
  rw [h2]
  dsimp only
  rw [h3]
  dsimp only
  rw [h4]
  dsimp only
  rw [h5]
  dsimp only
  rw [h6]
  dsimp only
  rw [h7]

lemma listComp_map (f : Nat → Except Exc Row) (g : Nat → Row) :
    ∀ idxs : List Nat, (∀ i ∈ idxs, f i = Except.ok (g i)) →
    listComp f idxs = Except.ok (idxs.map g) := by
  intro idxs
  induction idxs with
  | nil => intro _; rfl
  | cons i rest ih =>
    intro h
    unfold listComp
    rw [h i (List.mem_cons_self i rest)]
    dsimp only
    rw [ih (fun j hj => h j (List.mem_cons_of_mem i hj))]
    rfl

/-- A successful try body ends the retry loop at once. -/
lemma fetchLoop_ok (city : String) (p : Params) (transport : Transport)
    (rem calls : Nat) (sleeps : List Nat) (rows : List Row)
    (h : tryBody city p transport calls = Except.ok rows) :
    fetchLoop city p transport (rem + 1) calls sleeps =
      ⟨Except.ok rows, calls + 1, sleeps⟩ := by
  unfold fetchLoop
  rw [h]

/-- An exception that is neither a `RequestException` nor an `HTTPError`
escapes the retry loop at once, with no sleep taken. -/
lemma fetchLoop_fatal (city : String) (p : Params) (transport : Transport)
    (rem calls : Nat) (sleeps : List Nat) (err : Exc)
    (h : tryBody city p transport calls = Except.error err)
    (hreq : err.isRequestException = false) :
    fetchLoop city p transport (rem + 1) calls sleeps =
      ⟨Except.error err, calls + 1, sleeps⟩ := by
  have hhttp : err.isHTTPError = false := by
    cases err <;> simp_all [Exc.isRequestException, Exc.isHTTPError]
  unfold fetchLoop
  rw [h]
  dsimp only
  rw [if_neg (by simp [hreq]), if_neg (by simp [hhttp])]

/-- Any error produced by `validateVars` is a `RuntimeError`. -/
lemma validateVars_error_shape (dd : DailyDict) : ∀ (ks : List String) (err : Exc),
    validateVars dd ks = Except.error err → ∃ msg, err = Exc.runtimeError msg := by
  intro ks
  induction ks with
  | nil =>
    intro err h
    exact Except.noConfusion h
  | cons k ks ih =>
    intro err h
    unfold validateVars at h
    by_cases hk : (dd.lookup k).isSome = true
    · rw [if_pos hk] at h
      exact ih err h
    · rw [if_neg hk] at h
      exact ⟨missingKeyMsg k, ((Except.error.injEq _ _).mp h).symm⟩

/-- Any error produced by `validate_response` is a `RuntimeError`. -/
lemma validate_response_error_shape (data : ApiData) (err : Exc)
    (h : validate_response data = Except.error err) :
    ∃ msg, err = Exc.runtimeError msg := by
  unfold validate_response at h
  cases hdd : data.daily with
  | none =>
    rw [hdd] at h
    dsimp only at h
    exact ⟨MISSING_DAILY_MSG, ((Except.error.injEq _ _).mp h).symm⟩
  | some dd =>
    rw [hdd] at h
    dsimp only at h
    exact validateVars_error_shape dd VARIABLES err h

/-- `validate_response` succeeds when the three variable keys are present. -/
lemma validate_response_ok (data : ApiData) (dd : DailyDict)
    (hdd : data.daily = some dd)
    (ht : (dd.lookup "temperature_2m_mean").isSome = true)
    (hp : (dd.lookup "precipitation_sum").isSome = true)
    (hw : (dd.lookup "wind_speed_10m_max").isSome = true) :
    validate_response data = Except.ok () := by
  unfold validate_response
  rw [hdd]
  dsimp only
  refine (validateVars_ok_iff dd VARIABLES).mpr ?_
  intro k hk
  have hk3 : k = "temperature_2m_mean" ∨ k = "precipitation_sum" ∨
      k = "wind_speed_10m_max" := by
    simpa [VARIABLES] using hk
  rcases hk3 with rfl | rfl | rfl
  · exact ht
  · exact hp
  · exact hw

/-- Extraction builds one record per reported date, zipping the variable
arrays positionally, when the arrays are exactly as long as the dates. -/
lemma extractRows_ok (city : String) (dd : DailyDict) (dates tA pA wA : List JVal)
    (hdate : dd.lookup "date" = some dates)
    (ht : dd.lookup "temperature_2m_mean" = some tA)
    (hp : dd.lookup "precipitation_sum" = some pA)
    (hw : dd.lookup "wind_speed_10m_max" = some wA)
    (l1 : tA.length = dates.length) (l2 : pA.length = dates.length)
    (l3 : wA.length = dates.length) :
    extractRows city dd = Except.ok ((List.range dates.length).map fun i =>
      ⟨city, dates.getD i (JVal.str ""), tA.getD i (JVal.str ""),
        pA.getD i (JVal.str ""), wA.getD i (JVal.str "")⟩) := by
  have hd : dictItem dd "date" = Except.ok dates := by
    unfold dictItem
    rw [hdate]
  unfold extractRows
  rw [hd]
  dsimp only
  refine listComp_map _ _ (List.range dates.length) ?_
  intro i hi
  have hilt : i < dates.length := List.mem_range.mp hi
  exact rowAt_ok city dd dates tA pA wA ht hp hw i hilt (by omega) (by omega) (by omega)

/-- Unfolding of `get_meteo_data` past its argument checks. -/
lemma gmd_unfold (city : String) (s e : Date)
    (fetcher : Date → Date → Except Exc (List Row))
    (hc : (COORDINATES.lookup city).isNone = false) :
    get_meteo_data city s e "month" fetcher =
      match gmdLoop fetcher e (toDays e + 1 - toDays s) s [] [] with
      | some out => out
      | none => (Except.error (Exc.runtimeError "fuel exhausted"), []) := by
  unfold get_meteo_data
  rw [if_neg (by simp [hc]), if_neg (fun hne => hne rfl)]

/-- A supported city with the month interval and RuntimeError-or-success
fetcher outcomes always yields a successfully assembled dataset. -/
lemma gmd_ok_top (city : String) (s e : Date)
    (fetcher : Date → Date → Except Exc (List Row))
    (hcity : (COORDINATES.lookup city).isNone = false)
    (hs : s.Valid) (he : e.Valid)
    (hf : ∀ a b, (∃ rows, fetcher a b = Except.ok rows) ∨
      (∃ msg, fetcher a b = Except.error (Exc.runtimeError msg))) :
    ∃ rows evs, get_meteo_data city s e "month" fetcher = (Except.ok rows, evs) := by
  rw [gmd_unfold city s e fetcher hcity]
  obtain ⟨rows2, evs2, hloop⟩ :=
    gmd_ok fetcher e hf (toDays e + 1 - toDays s) s [] [] hs (by omega)
  rw [hloop]
  exact ⟨rows2, evs2, rfl⟩

/-! ### Claim theorems -/

/-- Claim C1, counterexample: with a transport answering 404 on every
attempt, `fetch_data_interval` does not fail immediately with a distinct
not-found error after one transport call; it makes 5 transport calls,
sleeps 5 units after each, and ends with the max-retries RuntimeError,
exactly as the repository's own `test_fetch_data_interval_404` asserts.
The dedicated 404 re-raise branch is unreachable because `HTTPError` is a
subclass of `RequestException` and the `RequestException` clause comes
first. -/
theorem claim1_counterexample :
    fetch_data_interval "Madrid" 40.4168 (-3.7038) ⟨1, 1, 1⟩ ⟨1, 1, 3⟩
      (fun _ _ => Except.error (Exc.httpError 404 "404 Client Error")) =
      ⟨Except.error (Exc.runtimeError MAX_RETRIES_MSG), 5, [5, 5, 5, 5, 5]⟩ ∧
    (fetch_data_interval "Madrid" 40.4168 (-3.7038) ⟨1, 1, 1⟩ ⟨1, 1, 3⟩
      (fun _ _ => Except.error (Exc.httpError 404 "404 Client Error"))).calls ≠ 1 := by
  constructor
  · rfl
  · intro h
    rw [show (fetch_data_interval "Madrid" 40.4168 (-3.7038) ⟨1, 1, 1⟩ ⟨1, 1, 3⟩
      (fun _ _ => Except.error (Exc.httpError 404 "404 Client Error"))).calls = 5 from rfl] at h
    exact absurd h (by omega)

/-- Claim C1 (amended): on a transport returning a 404 `HTTPError` on
every attempt, `fetch_data_interval` treats the failure like any transient
transport failure: the transport is invoked exactly 5 times, a 5-unit
sleep follows each failed attempt, and the call ends with the max-retries
RuntimeError rather than a distinct not-found error. -/
theorem claim1_amended (city : String) (lat lon : ℚ) (s e : Date)
    (transport : Transport)
    (hT : ∀ k, ∃ msg, transport (buildParams lat lon s e) k =
      Except.error (Exc.httpError 404 msg)) :
    fetch_data_interval city lat lon s e transport =
      ⟨Except.error (Exc.runtimeError MAX_RETRIES_MSG), 5, [5, 5, 5, 5, 5]⟩ := by
  have hT2 : ∀ k, ∃ exc, transport (buildParams lat lon s e) k = Except.error exc ∧
      exc.isRequestException = true := by
    intro k
    obtain ⟨msg, hm⟩ := hT k
    exact ⟨Exc.httpError 404 msg, hm, rfl⟩
  unfold fetch_data_interval
  rw [fetchLoop_retry city (buildParams lat lon s e) transport hT2 MAX_RETRIES 0 []]
  rfl

/-- Claim C1 (amended), witness at a concrete 404 transport. -/
theorem claim1_amended_witness :
    fetch_data_interval "London" 51.5074 (-0.1278) ⟨1, 1, 1⟩ ⟨1, 1, 3⟩
      (fun _ _ => Except.error (Exc.httpError 404 "not found")) =
      ⟨Except.error (Exc.runtimeError MAX_RETRIES_MSG), 5, [5, 5, 5, 5, 5]⟩ :=
  claim1_amended "London" 51.5074 (-0.1278) ⟨1, 1, 1⟩ ⟨1, 1, 3⟩
    (fun _ _ => Except.error (Exc.httpError 404 "not found"))
    (fun _ => ⟨"not found", rfl⟩)

/-- Claim C3: on a transport raising a transient transport-level failure
on every attempt, `fetch_data_interval` makes exactly 5 attempts with a
fixed 5-unit delay after each, then fails with the terminal RuntimeError
stating that the maximum number of retries was exceeded. -/
theorem claim3_retries (city : String) (lat lon : ℚ) (s e : Date)
    (transport : Transport)
    (hT : ∀ k, ∃ msg, transport (buildParams lat lon s e) k =
      Except.error (Exc.connectionError msg)) :
    fetch_data_interval city lat lon s e transport =
      ⟨Except.error (Exc.runtimeError MAX_RETRIES_MSG), 5, [5, 5, 5, 5, 5]⟩ := by
  have hT2 : ∀ k, ∃ exc, transport (buildParams lat lon s e) k = Except.error exc ∧
      exc.isRequestException = true := by
    intro k
    obtain ⟨msg, hm⟩ := hT k
    exact ⟨Exc.connectionError msg, hm, rfl⟩
  unfold fetch_data_interval
  rw [fetchLoop_retry city (buildParams lat lon s e) transport hT2 MAX_RETRIES 0 []]
  rfl

/-- Claim C3, witness at a concrete always-failing transport. -/
theorem claim3_retries_witness :
    fetch_data_interval "Madrid" 40.4168 (-3.7038) ⟨1, 1, 1⟩ ⟨1, 1, 3⟩
      (fun _ _ => Except.error (Exc.connectionError "connection refused")) =
      ⟨Except.error (Exc.runtimeError MAX_RETRIES_MSG), 5, [5, 5, 5, 5, 5]⟩ :=
  claim3_retries "Madrid" 40.4168 (-3.7038) ⟨1, 1, 1⟩ ⟨1, 1, 3⟩
    (fun _ _ => Except.error (Exc.connectionError "connection refused"))
    (fun _ => ⟨"connection refused", rfl⟩)

/-- Claim C7: when the first attempt's transport call succeeds but the
payload fails structural validation, the malformed-response error
surfaces immediately: the transport is invoked exactly once, no retry
delay is taken, and the validation error escapes unchanged. -/
theorem claim7_malformed_no_retry (city : String) (lat lon : ℚ) (s e : Date)
    (transport : Transport) (data : ApiData) (err : Exc)
    (h0 : transport (buildParams lat lon s e) 0 = Except.ok data)
    (hval : validate_response data = Except.error err) :
    fetch_data_interval city lat lon s e transport = ⟨Except.error err, 1, []⟩ := by
  obtain ⟨msg, rfl⟩ := validate_response_error_shape data err hval
  have htb : tryBody city (buildParams lat lon s e) transport 0 =
      Except.error (Exc.runtimeError msg) := by
    unfold tryBody
    rw [h0]
    dsimp only
    rw [hval]
  unfold fetch_data_interval
  have h5 : MAX_RETRIES = 4 + 1 := rfl
  rw [h5, fetchLoop_fatal city (buildParams lat lon s e) transport 4 0 [] _ htb rfl]

/-- Claim C7, witness at a payload whose daily object is missing the
temperature array. -/
theorem claim7_malformed_no_retry_witness :
    fetch_data_interval "Madrid" 40.4168 (-3.7038) ⟨1, 1, 1⟩ ⟨1, 1, 3⟩
      (fun _ _ => Except.ok ⟨some [("date", []), ("precipitation_sum", []),
        ("wind_speed_10m_max", [])]⟩) =
      ⟨Except.error (Exc.runtimeError (missingKeyMsg "temperature_2m_mean")), 1, []⟩ :=
  claim7_malformed_no_retry "Madrid" 40.4168 (-3.7038) ⟨1, 1, 1⟩ ⟨1, 1, 3⟩
    (fun _ _ => Except.ok ⟨some [("date", []), ("precipitation_sum", []),
      ("wind_speed_10m_max", [])]⟩)
    ⟨some [("date", []), ("precipitation_sum", []), ("wind_speed_10m_max", [])]⟩
    (Exc.runtimeError (missingKeyMsg "temperature_2m_mean")) rfl (by decide)

/-- Claim C5: on a well-formed payload whose daily object carries a date
array and equal-length per-variable arrays, a successful
`fetch_data_interval` returns exactly one record per reported date, each
record carrying the city, that date, and the values at the same
positional index of the three per-variable arrays, after exactly one
transport call and no sleeps. -/
theorem claim5_extraction (city : String) (lat lon : ℚ) (s e : Date)
    (transport : Transport) (data : ApiData) (dd : DailyDict)
    (dates tA pA wA : List JVal)
    (h0 : transport (buildParams lat lon s e) 0 = Except.ok data)
    (hdd : data.daily = some dd)
    (hdate : dd.lookup "date" = some dates)
    (ht : dd.lookup "temperature_2m_mean" = some tA)
    (hp : dd.lookup "precipitation_sum" = some pA)
    (hw : dd.lookup "wind_speed_10m_max" = some wA)
    (l1 : tA.length = dates.length) (l2 : pA.length = dates.length)
    (l3 : wA.length = dates.length) :
    fetch_data_interval city lat lon s e transport =
      ⟨Except.ok ((List.range dates.length).map fun i =>
        ⟨city, dates.getD i (JVal.str ""), tA.getD i (JVal.str ""),
          pA.getD i (JVal.str ""), wA.getD i (JVal.str "")⟩), 1, []⟩ := by
  have hvr : validate_response data = Except.ok () :=
    validate_response_ok data dd hdd (by rw [ht]; rfl) (by rw [hp]; rfl)
      (by rw [hw]; rfl)
  have hex := extractRows_ok city dd dates tA pA wA hdate ht hp hw l1 l2 l3
  have htb : tryBody city (buildParams lat lon s e) transport 0 =
      Except.ok ((List.range dates.length).map fun i =>
        ⟨city, dates.getD i (JVal.str ""), tA.getD i (JVal.str ""),
          pA.getD i (JVal.str ""), wA.getD i (JVal.str "")⟩) := by
    unfold tryBody
    rw [h0]
    dsimp only
    rw [hvr]
    dsimp only
    rw [hdd]
    dsimp only
    rw [hex]
  unfold fetch_data_interval
  have h5 : MAX_RETRIES = 4 + 1 := rfl
  rw [h5, fetchLoop_ok city (buildParams lat lon s e) transport 4 0 [] _ htb]

/-- Claim C5, witness at the repository test's mocked payload. -/
theorem claim5_extraction_witness :
    fetch_data_interval "Madrid" 40.4168 (-3.7038) ⟨1, 1, 1⟩ ⟨1, 1, 3⟩
      (fun _ _ => Except.ok ⟨some
        [("date", [JVal.str "2020-01-01", JVal.str "2020-01-02", JVal.str "2020-01-03"]),
         ("temperature_2m_mean", [JVal.num 5, JVal.num 6, JVal.num 7]),
         ("precipitation_sum", [JVal.num 0, JVal.num 1.2, JVal.num 0.8]),
         ("wind_speed_10m_max", [JVal.num 15, JVal.num 20, JVal.num 18])]⟩) =
      ⟨Except.ok ((List.range ([JVal.str "2020-01-01", JVal.str "2020-01-02",
          JVal.str "2020-01-03"] : List JVal).length).map fun i =>
        ⟨"Madrid",
          ([JVal.str "2020-01-01", JVal.str "2020-01-02", JVal.str "2020-01-03"] :
            List JVal).getD i (JVal.str ""),
          ([JVal.num 5, JVal.num 6, JVal.num 7] : List JVal).getD i (JVal.str ""),
          ([JVal.num 0, JVal.num 1.2, JVal.num 0.8] : List JVal).getD i (JVal.str ""),
          ([JVal.num 15, JVal.num 20, JVal.num 18] : List JVal).getD i (JVal.str "")⟩),
        1, []⟩ :=
  claim5_extraction "Madrid" 40.4168 (-3.7038) ⟨1, 1, 1⟩ ⟨1, 1, 3⟩ _ _ _ _ _ _ _
    rfl rfl rfl rfl rfl rfl rfl rfl rfl

/-- Claim C6: `validate_response` succeeds exactly when the payload has a
daily container holding every enumerated variable as a key; a missing
daily container is reported first, and otherwise the error names the
first missing variable in the declared enumeration order. -/
theorem claim6_validate (data : ApiData) :
    (validate_response data = Except.ok () ↔
      ∃ dd, data.daily = some dd ∧ ∀ k ∈ VARIABLES, (dd.lookup k).isSome = true)
    ∧ (data.daily = none →
      validate_response data = Except.error (Exc.runtimeError MISSING_DAILY_MSG))
    ∧ (∀ dd k, data.daily = some dd →
      VARIABLES.find? (fun v => (dd.lookup v).isNone) = some k →
      validate_response data = Except.error (Exc.runtimeError (missingKeyMsg k))) := by
  refine ⟨?_, ?_, ?_⟩
  · cases hdd : data.daily with
    | none =>
      constructor
      · intro h
        unfold validate_response at h
        rw [hdd] at h
        exact Except.noConfusion h
      · rintro ⟨dd, hdd2, _⟩
        exact Option.noConfusion hdd2
    | some dd =>
      unfold validate_response
      rw [hdd]
      dsimp only
      rw [validateVars_ok_iff dd VARIABLES]
      constructor
      · intro hall
        exact ⟨dd, rfl, hall⟩
      · rintro ⟨dd2, hdd2, hall⟩
        obtain rfl : dd = dd2 := (Option.some.injEq _ _).mp hdd2
        exact hall
  · intro hnone
    unfold validate_response
    rw [hnone]
  · intro dd k hdd hfind
    unfold validate_response
    rw [hdd]
    dsimp only
    exact validateVars_find dd VARIABLES k hfind

/-- Claim C6, witness: a payload with no daily container, a payload
missing the temperature key, and the repository test's complete payload. -/
theorem claim6_validate_witness :
    validate_response ⟨none⟩ = Except.error (Exc.runtimeError MISSING_DAILY_MSG) ∧
    validate_response ⟨some [("date", []), ("precipitation_sum", []),
      ("wind_speed_10m_max", [])]⟩ =
      Except.error (Exc.runtimeError (missingKeyMsg "temperature_2m_mean")) ∧
    validate_response ⟨some [("date", []), ("temperature_2m_mean", []),
      ("precipitation_sum", []), ("wind_speed_10m_max", [])]⟩ = Except.ok () :=
  ⟨(claim6_validate ⟨none⟩).2.1 rfl,
   (claim6_validate _).2.2 _ "temperature_2m_mean" rfl (by decide),
   (claim6_validate _).1.mpr ⟨_, rfl, by decide⟩⟩

/-- Claim C8: the module entry point wraps `main()` in a blanket
`except Exception` handler: for every outcome of the pipeline the process
ends normally, and an escaping error produces exactly one log line and no
propagated exception. -/
theorem claim8_top_level :
    (∀ r : Except Exc Unit, (mainGuard r).1 = Except.ok ()) ∧
    (∀ err : Exc, mainGuard (Except.error err) =
      (Except.ok (), ["Error inesperado: " ++ err.msg])) ∧
    mainGuard (Except.ok ()) = (Except.ok (), []) := by
  refine ⟨?_, ?_, rfl⟩
  · intro r
    cases r <;> rfl
  · intro err
    rfl

/-- Claim C4, counterexample: a fetcher outcome that is not a
RuntimeError — here the `KeyError` that `fetch_data_interval` raises when
a validated payload still lacks the `date` key — is not caught by the
assembler's `except RuntimeError`, so `get_meteo_data` fails instead of
returning a dataset. -/
theorem claim4_counterexample :
    get_meteo_data "Madrid" ⟨1, 1, 1⟩ ⟨1, 1, 3⟩ "month"
      (fun _ _ => Except.error (Exc.keyError "date")) =
      (Except.error (Exc.keyError "date"),
        [Ev.fetchCall ⟨1, 1, 1⟩ ⟨1, 1, 3⟩, Ev.sleep 1]) := by
  decide

/-- Claim C4 (amended): for a supported city with the month interval,
whenever every per-subrange fetcher outcome is either a row list or a
RuntimeError, `get_meteo_data` never fails: every RuntimeError is caught
and that sub-range skipped, and the call returns a dataset. -/
theorem claim4_amended (city : String) (s e : Date)
    (fetcher : Date → Date → Except Exc (List Row))
    (hcity : (COORDINATES.lookup city).isNone = false)
    (hs : s.Valid) (he : e.Valid)
    (hf : ∀ a b, (∃ rows, fetcher a b = Except.ok rows) ∨
      (∃ msg, fetcher a b = Except.error (Exc.runtimeError msg))) :
    ∃ rows evs, get_meteo_data city s e "month" fetcher = (Except.ok rows, evs) :=
  gmd_ok_top city s e fetcher hcity hs he hf

/-- Claim C4 (amended), witness: a fetcher failing every sub-range with a
RuntimeError still lets the assembler return a dataset. -/
theorem claim4_amended_witness :
    ∃ rows evs, get_meteo_data "Madrid" ⟨1, 1, 1⟩ ⟨1, 1, 3⟩ "month"
      (fun _ _ => Except.error (Exc.runtimeError "boom")) = (Except.ok rows, evs) :=
  claim4_amended "Madrid" ⟨1, 1, 1⟩ ⟨1, 1, 3⟩
    (fun _ _ => Except.error (Exc.runtimeError "boom"))
    rfl (by decide) (by decide) (fun _ _ => Or.inr ⟨"boom", rfl⟩)

/-- Claim C9: an unsupported city, or a supported city with an interval
other than month, makes `get_meteo_data` raise a ValueError before any
fetch call or sleep happens (the event trace is empty); for a supported
city with the month interval and fetcher outcomes limited to successes
and RuntimeErrors, no ValueError is ever raised. -/
theorem claim9_value_error (city : String) (s e : Date) (interval : String)
    (fetcher : Date → Date → Except Exc (List Row)) :
    ((COORDINATES.lookup city).isNone = true →
      get_meteo_data city s e interval fetcher =
        (Except.error (Exc.valueError (CITY_ERROR_MSG city)), []))
    ∧ ((COORDINATES.lookup city).isNone = false → interval ≠ "month" →
      get_meteo_data city s e interval fetcher =
        (Except.error (Exc.valueError INTERVAL_ERROR_MSG), []))
    ∧ ((COORDINATES.lookup city).isNone = false → interval = "month" →
      s.Valid → e.Valid →
      (∀ a b, (∃ rows, fetcher a b = Except.ok rows) ∨
        (∃ msg, fetcher a b = Except.error (Exc.runtimeError msg))) →
      ∀ msg, (get_meteo_data city s e interval fetcher).1 ≠
        Except.error (Exc.valueError msg)) := by
  refine ⟨?_, ?_, ?_⟩
  · intro h
    unfold get_meteo_data
    rw [if_pos h]
  · intro h hint
    unfold get_meteo_data
    rw [if_neg (by simp [h]), if_pos hint]
  · intro h hint hs he hf msg
    subst hint
    obtain ⟨rows, evs, hok⟩ := gmd_ok_top city s e fetcher h hs he hf
    rw [hok]
    exact fun hcon => Except.noConfusion hcon

/-- Claim C9, witness: the three branches at concrete inputs. -/
theorem claim9_value_error_witness :
    get_meteo_data "Paris" ⟨1, 1, 1⟩ ⟨1, 1, 3⟩ "month" (fun _ _ => Except.ok []) =
      (Except.error (Exc.valueError (CITY_ERROR_MSG "Paris")), []) ∧
    get_meteo_data "Madrid" ⟨1, 1, 1⟩ ⟨1, 1, 3⟩ "week" (fun _ _ => Except.ok []) =
      (Except.error (Exc.valueError INTERVAL_ERROR_MSG), []) ∧
    (get_meteo_data "Madrid" ⟨1, 1, 1⟩ ⟨1, 1, 3⟩ "month"
      (fun _ _ => Except.ok [])).1 ≠ Except.error (Exc.valueError "whatever") :=
  ⟨(claim9_value_error "Paris" ⟨1, 1, 1⟩ ⟨1, 1, 3⟩ "month" (fun _ _ => Except.ok [])).1 rfl,
   (claim9_value_error "Madrid" ⟨1, 1, 1⟩ ⟨1, 1, 3⟩ "week" (fun _ _ => Except.ok [])).2.1
     rfl (by decide),
   (claim9_value_error "Madrid" ⟨1, 1, 1⟩ ⟨1, 1, 3⟩ "month" (fun _ _ => Except.ok [])).2.2
     rfl rfl (by decide) (by decide) (fun _ _ => Or.inl ⟨[], rfl⟩) "whatever"⟩

/-- Claim C10: the sub-range loop of `get_meteo_data` terminates: with
fuel equal to the number of days in the range plus one, the loop always
reaches a result for every fetcher, because line 45 advances the current
date to the first day of a strictly later month. -/
theorem claim10_termination (s e : Date) (hs : s.Valid) (he : e.Valid) :
    (∀ (fetcher : Date → Date → Except Exc (List Row)) (acc : List Row) (evs : List Ev),
      ∃ out, gmdLoop fetcher e (toDays e + 1 - toDays s) s acc evs = some out)
    ∧ ∀ c : Date, c.Valid →
      (nextMonthStart c).d = 1 ∧ monthIdx c < monthIdx (nextMonthStart c) := by
  constructor
  · intro fetcher acc evs
    exact gmd_total fetcher e (toDays e + 1 - toDays s) s acc evs hs (by omega)
  · intro c hc
    exact ⟨(nextMonthStart_spec c hc).2.1, monthIdx_nextMonthStart c hc⟩

/-- Claim C10, witness at a concrete range and fetcher. -/
theorem claim10_termination_witness :
    ∃ out, gmdLoop (fun _ _ => Except.ok []) ⟨1, 3, 31⟩
      (toDays ⟨1, 3, 31⟩ + 1 - toDays ⟨1, 1, 30⟩) ⟨1, 1, 30⟩ [] [] = some out :=
  (claim10_termination ⟨1, 1, 30⟩ ⟨1, 3, 31⟩ (by decide) (by decide)).1
    (fun _ _ => Except.ok []) [] []

/-- Claim C2, counterexample: for the valid range 0001-01-30 .. 0001-03-31
with start day-of-month 30, the first emitted sub-range is
(0001-01-30, 0001-02-28): its end is the end of February, not the end of
the start date's own calendar month (0001-01-31), because adding 32 days
to Jan 30 already lands in March. -/
theorem claim2_counterexample :
    (⟨1, 1, 30⟩ : Date).Valid ∧ (⟨1, 3, 31⟩ : Date).Valid ∧
    toDays ⟨1, 1, 30⟩ ≤ toDays ⟨1, 3, 31⟩ ∧ (⟨1, 1, 30⟩ : Date).d ≠ 1 ∧
    splitRangesF ⟨1, 3, 31⟩ (toDays ⟨1, 3, 31⟩ + 1 - toDays ⟨1, 1, 30⟩) ⟨1, 1, 30⟩ =
      some [(⟨1, 1, 30⟩, ⟨1, 2, 28⟩), (⟨1, 3, 1⟩, ⟨1, 3, 31⟩)] ∧
    (⟨1, 2, 28⟩ : Date) ≠ (⟨1, 1, 31⟩ : Date) ∧
    (⟨1, 2, 28⟩ : Date) ≠ minD ⟨1, 1, 31⟩ ⟨1, 3, 31⟩ := by
  decide

/-- Claim C2 (amended): for valid start and end dates with start at most
end, the emitted sub-ranges are contiguous, non-overlapping and cover the
day range exactly once; every sub-range except possibly the first and the
last spans exactly one full calendar month; and the first sub-range runs
from the start date through `min(next_date - 1 day, end)` where
`next_date` is the first of the month containing start + 32 days — the
end of the start's own month in general, but the end of the following
month when the start lies in the last few days of a month (e.g. Jan
28..31 before a 28-day February). -/
theorem claim2_amended (s e : Date) (l : List (Date × Date))
    (hs : s.Valid) (he : e.Valid) (hse : toDays s ≤ toDays e)
    (hl : splitRangesF e (toDays e + 1 - toDays s) s = some l) :
    coversD (toDays s) (toDays e) (l.map fun p => (toDays p.1, toDays p.2))
    ∧ (∀ r ∈ l.tail.dropLast, FullMonth r)
    ∧ l.head? = some (s, minD (predDate (nextMonthStart s)) e) := by
  have hcov := split_covers e (toDays e + 1 - toDays s) s l hs hse hl
  obtain ⟨f, hf⟩ : ∃ f, toDays e + 1 - toDays s = f + 1 :=
    ⟨toDays e - toDays s, by omega⟩
  rw [hf] at hl
  obtain ⟨rest, hrest, rfl⟩ := split_cons e f s l hse hl
  refine ⟨hcov, ?_, rfl⟩
  intro r hr
  simp only [List.tail_cons] at hr
  exact split_middles e f (nextMonthStart s) rest (step_spec s hs).1
    (nextMonthStart_spec s hs).2.1 hrest r hr

/-- Claim C2 (amended), witness at the range 0001-11-15 .. 0002-02-10,
whose four sub-ranges include a partial first and last month and two full
middle months across a year boundary. -/
theorem claim2_amended_witness :
    coversD (toDays ⟨1, 11, 15⟩) (toDays ⟨2, 2, 10⟩)
      (([((⟨1, 11, 15⟩ : Date), (⟨1, 11, 30⟩ : Date)), (⟨1, 12, 1⟩, ⟨1, 12, 31⟩),
        (⟨2, 1, 1⟩, ⟨2, 1, 31⟩), (⟨2, 2, 1⟩, ⟨2, 2, 10⟩)]).map
        fun p => (toDays p.1, toDays p.2))
    ∧ (∀ r ∈ ([((⟨1, 11, 15⟩ : Date), (⟨1, 11, 30⟩ : Date)), (⟨1, 12, 1⟩, ⟨1, 12, 31⟩),
        (⟨2, 1, 1⟩, ⟨2, 1, 31⟩), (⟨2, 2, 1⟩, ⟨2, 2, 10⟩)]).tail.dropLast, FullMonth r)
    ∧ ([((⟨1, 11, 15⟩ : Date), (⟨1, 11, 30⟩ : Date)), (⟨1, 12, 1⟩, ⟨1, 12, 31⟩),
        (⟨2, 1, 1⟩, ⟨2, 1, 31⟩), (⟨2, 2, 1⟩, ⟨2, 2, 10⟩)]).head? =
      some (⟨1, 11, 15⟩, minD (predDate (nextMonthStart ⟨1, 11, 15⟩)) ⟨2, 2, 10⟩) :=
  claim2_amended ⟨1, 11, 15⟩ ⟨2, 2, 10⟩
    [(⟨1, 11, 15⟩, ⟨1, 11, 30⟩), (⟨1, 12, 1⟩, ⟨1, 12, 31⟩),
     (⟨2, 1, 1⟩, ⟨2, 1, 31⟩), (⟨2, 2, 1⟩, ⟨2, 2, 10⟩)]
    (by decide) (by decide) (by decide) (by decide)

end MeteoApi
